import Mathlib

/-!
Verification development for the Project-Folio client-side optimistic
mutation layer and its thin server routes.

The embedding below is a shallow translation of:
* the `ProjectCard` client component (debounced field-edit scheduler
  `debouncedSync`, the unload flush guard `flushPendingUpdates`, and the
  structural operations `addNote` / `deleteNote` / `addCommand` /
  `deleteCommand` / `addLink`), and
* the server route handlers for notes, commands, links creation and for
  the project reorder bulk update.

Strings from the source (ids, field names, key strings) are modelled as
`List Char` so that the first-dash key parsing done by the flush guard can
be reasoned about directly.  Timers are modelled by their expiry instant
together with the `(type, id)` pair captured by the `setTimeout` closure;
in every reachable program state the `debounceTimers` map and the set of
live timeouts coincide (entries are created, replaced and deleted
together), so one map represents both.  Network calls are modelled by a
`NetResult` outcome parameter standing for the eventual settlement of the
`fetch` promise: `ok` (2xx response), `httpError` (response with
`res.ok === false`) or `netError` (rejected promise / network unreachable).
-/

namespace ProjectFolio

/-- Character strings of the source, as plain character lists. -/
abbrev Str := List Char

/-- A JS-object of string fields, as an association list with unique keys. -/
abbrev Updates := List (Str × Str)

/-- Association-list lookup (first entry with the given key). -/
def alookup {β : Type} (k : Str) : List (Str × β) → Option β
  | [] => none
  | (k', v) :: rest => if k' = k then some v else alookup k rest

/-- Association-list update-or-append, mirroring JS object key assignment. -/
def aupsert {β : Type} (k : Str) (v : β) : List (Str × β) → List (Str × β)
  | [] => [(k, v)]
  | (k', v') :: rest => if k' = k then (k, v) :: rest else (k', v') :: aupsert k v rest

/-- Association-list key deletion, mirroring the JS `delete` operator. -/
def aerase {β : Type} (k : Str) : List (Str × β) → List (Str × β)
  | [] => []
  | (k', v) :: rest => if k' = k then aerase k rest else (k', v) :: aerase k rest

/-- JS object spread `{ ...old, ...nw }` at the level of field lookup:
fields of `nw` win over fields of `old`. -/
def mergeUpd (old nw : Updates) : Updates :=
  old.filter (fun p => (alookup p.1 nw).isNone) ++ nw

/-- JS `a || d` on an optional string field: `undefined` and the empty
string are both falsy and fall back to the default. -/
def jsOr (v : Option Str) (d : Str) : Str :=
  match v with
  | some s => if s = [] then d else s
  | none => d

/-- The two entity kinds routed through the debounced sync path. -/
inductive EntityType
  | note
  | command
deriving DecidableEq, Repr

/-- The string literal `'note'`. -/
def noteChars : Str := ['n', 'o', 't', 'e']

/-- The string literal `'command'`. -/
def commandChars : Str := ['c', 'o', 'm', 'm', 'a', 'n', 'd']

/-- The string form of an entity kind used to build scheduler keys. -/
def EntityType.str : EntityType → Str
  | .note => noteChars
  | .command => commandChars

/-- The dash character separating kind and id inside a scheduler key. -/
def dashChar : Char := '-'

/-- Key construction from `debouncedSync`: `` `${type}-${id}` ``. -/
def mkKey (ty : EntityType) (id : Str) : Str :=
  ty.str ++ dashChar :: id

/-- The field-name literal `'tag'`. -/
def fieldTag : Str := ['t', 'a', 'g']

/-- The field-name literal `'content'`. -/
def fieldContent : Str := ['c', 'o', 'n', 't', 'e', 'n', 't']

/-- The field-name literal `'command'`. -/
def fieldCommand : Str := ['c', 'o', 'm', 'm', 'a', 'n', 'd']

/-- The field-name literal `'description'`. -/
def fieldDescription : Str := ['d', 'e', 's', 'c', 'r', 'i', 'p', 't', 'i', 'o', 'n']

/-- The field-name literal `'id'`. -/
def fieldId : Str := ['i', 'd']

/-- The field-name literal `'note_id'`. -/
def noteIdField : Str := ['n', 'o', 't', 'e', '_', 'i', 'd']

/-- The field-name literal `'command_id'`. -/
def commandIdField : Str := ['c', 'o', 'm', 'm', 'a', 'n', 'd', '_', 'i', 'd']

/-- The tag literal `'Note'` used as the default tag of a new note. -/
def tagNoteChars : Str := ['N', 'o', 't', 'e']

/-- The id-carrying field name of a PATCH body for an entity kind. -/
def idFieldName : EntityType → Str
  | .note => noteIdField
  | .command => commandIdField

/-- A note of the Entity Store (`Note` in `types/database`); the
timestamp fields are not tracked since no verified claim mentions them. -/
structure Note where
  id : Str
  project_id : Str
  tag : Str
  content : Str
deriving DecidableEq, Repr

/-- A command of the Entity Store (`Command` in `types/database`). -/
structure Command where
  id : Str
  project_id : Str
  command : Str
  description : Str
deriving DecidableEq, Repr

/-- A quick-launch link of the Entity Store, reduced to the fields the
claims mention. -/
structure Link where
  id : Str
  project_id : Str
  name : Str
  link_type : Str
deriving DecidableEq, Repr

/-- Server endpoints addressed by the client component. -/
inductive Endpoint
  | notes (projectId : Str)
  | commands (projectId : Str)
  | links (projectId : Str)
  | notesDelete (projectId noteId : Str)
  | commandsDelete (projectId cmdId : Str)
  | linksDelete (projectId linkId : Str)
deriving DecidableEq, Repr

/-- The endpoint a debounced PATCH for an entity kind is sent to. -/
def patchEndpoint (pid : Str) : EntityType → Endpoint
  | .note => .notes pid
  | .command => .commands pid

/-- Body of a field-update write: the id-carrying field (`note_id` or
`command_id`), its value, and the merged field updates spread after it. -/
structure WriteBody where
  idField : Str
  idVal : Str
  updates : Updates
deriving DecidableEq, Repr

/-- A network request issued by the component. -/
inductive Request
  | patch (ep : Endpoint) (body : WriteBody)
  | beacon (ep : Endpoint) (body : WriteBody)
  | post (ep : Endpoint) (body : Updates)
  | httpDelete (ep : Endpoint)
deriving DecidableEq, Repr

/-- User-visible notifications raised through `showToast`. -/
inductive Toast
  | failedSaveHttp (ty : EntityType) (msg : Str)
  | failedSaveNet (ty : EntityType)
  | failedSyncNote
  | failedSyncCommand
  | failedSyncLink
  | failedSyncDelete
deriving DecidableEq, Repr

/-- Settlement of a `fetch` call: 2xx response, non-2xx response
(`res.ok === false`), or a rejected promise (network unreachable). -/
inductive NetResult
  | ok
  | httpError (msg : Str)
  | netError
deriving DecidableEq, Repr

/-- A queued mutation of `pendingUpdates.current`: `{ type, updates }`. -/
structure PendingRec where
  ty : EntityType
  updates : Updates
deriving DecidableEq, Repr

/-- A live debounce timer of `debounceTimers.current`: its expiry instant
and the `(type, id)` pair captured by the `setTimeout` closure. -/
structure TimerRec where
  expiry : Nat
  ty : EntityType
  id : Str
deriving DecidableEq, Repr

/-- The state of one `ProjectCard`: the scheduler maps, the visible
Entity Store slices, and the observable log of requests and toasts. -/
structure CardState where
  pending : List (Str × PendingRec)
  timers : List (Str × TimerRec)
  notes : List Note
  commands : List Command
  links : List Link
  sent : List Request
  toasts : List Toast
deriving DecidableEq, Repr

/-- The state of a freshly mounted card over an empty project. -/
def initState : CardState :=
  { pending := [], timers := [], notes := [], commands := [], links := [],
    sent := [], toasts := [] }

/-- Embeds `debouncedSync(id, type, updates)`: merges the new updates over any
pending mutation queued under `` `${type}-${id}` `` (later field values
win), clears the key's previous timer and starts a fresh 500-unit one. -/
def debouncedSync (now : Nat) (id : Str) (ty : EntityType) (updates : Updates)
    (s : CardState) : CardState :=
  let key := mkKey ty id
  let prev := match alookup key s.pending with
    | some r => r.updates
    | none => []
  { s with
    pending := aupsert key ⟨ty, mergeUpd prev updates⟩ s.pending,
    timers := aupsert key ⟨now + 500, ty, id⟩ s.timers }

/-- Body of the `setTimeout` callback installed by `debouncedSync`,
parametrised by the settlement `res` of its PATCH `fetch`.  It reads the
pending record for the key (returning unchanged when absent), deletes the
pending record and the timer entry, issues the PATCH whose body is
`{ note_id: id, ...pending.updates }` (resp. `command_id`), and on a
non-ok response or a network error raises a toast; the Entity Store
slices are never touched here. -/
def fireTimer (pid : Str) (ty : EntityType) (id : Str) (res : NetResult)
    (s : CardState) : CardState :=
  let key := mkKey ty id
  match alookup key s.pending with
  | none => s
  | some pend =>
    let s1 := { s with pending := aerase key s.pending, timers := aerase key s.timers }
    let s2 := { s1 with
      sent := s1.sent ++ [.patch (patchEndpoint pid ty) ⟨idFieldName ty, id, pend.updates⟩] }
    match res with
    | .ok => s2
    | .httpError m => { s2 with toasts := s2.toasts ++ [.failedSaveHttp ty m] }
    | .netError => { s2 with toasts := s2.toasts ++ [.failedSaveNet ty] }

/-- Fires every timer whose expiry has been reached at instant `t`
(the event-loop delivering due timeouts before the next user event). -/
def fireAllDue (pid : Str) (t : Nat) (res : NetResult) (s : CardState) : CardState :=
  (s.timers.filter (fun e => decide (e.2.expiry ≤ t))).foldl
    (fun st e => fireTimer pid e.2.ty e.2.id res st) s

/-- The spread `{ ...note, ...updates }` restricted to the mutable
fields `tag` and `content`. -/
def Note.applyUpd (n : Note) (u : Updates) : Note :=
  { n with
    tag := (alookup fieldTag u).getD n.tag,
    content := (alookup fieldContent u).getD n.content }

/-- The spread `{ ...cmd, ...updates }` restricted to the mutable
fields `command` and `description`. -/
def Command.applyUpd (c : Command) (u : Updates) : Command :=
  { c with
    command := (alookup fieldCommand u).getD c.command,
    description := (alookup fieldDescription u).getD c.description }

/-- Embeds `updateNote(note, updates)`: optimistically replaces the note in the
store and registers the edit with the debounced sync path. -/
def updateNote (now : Nat) (n : Note) (u : Updates) (s : CardState) : CardState :=
  let s1 := { s with
    notes := s.notes.map (fun m => if m.id = n.id then n.applyUpd u else m) }
  debouncedSync now n.id .note u s1

/-- Embeds `updateCommand(cmd, updates)`: optimistically replaces the command in
the store and registers the edit with the debounced sync path. -/
def updateCommand (now : Nat) (c : Command) (u : Updates) (s : CardState) : CardState :=
  let s1 := { s with
    commands := s.commands.map (fun d => if d.id = c.id then c.applyUpd u else d) }
  debouncedSync now c.id .command u s1

/-- The creation body `{ id, tag: 'Note', content: '' }` of `addNote`. -/
def noteCreateBody (freshId : Str) : Updates :=
  [(fieldId, freshId), (fieldTag, tagNoteChars), (fieldContent, [])]

/-- Embeds `addNote()`: allocates `freshId` client-side (`crypto.randomUUID`,
modelled as a parameter), inserts the new note synchronously, and issues
a fire-and-forget POST carrying the id; only a rejected promise
(`.catch`) raises a toast — the response is never inspected and the
store is never changed afterwards. -/
def addNote (pid : Str) (freshId : Str) (res : NetResult) (s : CardState) : CardState :=
  let n : Note := { id := freshId, project_id := pid, tag := tagNoteChars, content := [] }
  let s1 := { s with notes := s.notes ++ [n] }
  let s2 := { s1 with sent := s1.sent ++ [.post (.notes pid) (noteCreateBody freshId)] }
  match res with
  | .netError => { s2 with toasts := s2.toasts ++ [.failedSyncNote] }
  | _ => s2

/-- The creation body `{ id, command: '', description: '' }` of `addCommand`. -/
def commandCreateBody (freshId : Str) : Updates :=
  [(fieldId, freshId), (fieldCommand, []), (fieldDescription, [])]

/-- Embeds `addCommand()`: same shape as `addNote` for the commands collection. -/
def addCommand (pid : Str) (freshId : Str) (res : NetResult) (s : CardState) : CardState :=
  let c : Command := { id := freshId, project_id := pid, command := [], description := [] }
  let s1 := { s with commands := s.commands ++ [c] }
  let s2 := { s1 with sent := s1.sent ++ [.post (.commands pid) (commandCreateBody freshId)] }
  match res with
  | .netError => { s2 with toasts := s2.toasts ++ [.failedSyncCommand] }
  | _ => s2

/-- The string literal `'New Link'`. -/
def newLinkChars : Str := ['N', 'e', 'w', ' ', 'L', 'i', 'n', 'k']

/-- The field-name literal `'name'`. -/
def fieldName : Str := ['n', 'a', 'm', 'e']

/-- The field-name literal `'link_type'`. -/
def fieldLinkType : Str := ['l', 'i', 'n', 'k', '_', 't', 'y', 'p', 'e']

/-- The string literal `'url'`. -/
def urlChars : Str := ['u', 'r', 'l']

/-- The creation body `{ id, name: 'New Link', link_type: 'url' }` of `addLink`. -/
def linkCreateBody (freshId : Str) : Updates :=
  [(fieldId, freshId), (fieldName, newLinkChars), (fieldLinkType, urlChars)]

/-- Embeds `addLink()`: allocates the id client-side, inserts the link
synchronously and issues a fire-and-forget POST carrying the id. -/
def addLink (pid : Str) (freshId : Str) (res : NetResult) (s : CardState) : CardState :=
  let l : Link := { id := freshId, project_id := pid, name := newLinkChars, link_type := urlChars }
  let s1 := { s with links := s.links ++ [l] }
  let s2 := { s1 with sent := s1.sent ++ [.post (.links pid) (linkCreateBody freshId)] }
  match res with
  | .netError => { s2 with toasts := s2.toasts ++ [.failedSyncLink] }
  | _ => s2

/-- Embeds `deleteNote(noteId)`: removes the note from the store and issues a
fire-and-forget DELETE; only a rejected promise raises a toast, the
response status is never inspected, and neither the pending map nor the
timers are touched. -/
def deleteNote (pid : Str) (noteId : Str) (res : NetResult) (s : CardState) : CardState :=
  let s1 := { s with notes := s.notes.filter (fun n => decide (n.id ≠ noteId)) }
  let s2 := { s1 with sent := s1.sent ++ [.httpDelete (.notesDelete pid noteId)] }
  match res with
  | .netError => { s2 with toasts := s2.toasts ++ [.failedSyncDelete] }
  | _ => s2

/-- Embeds `deleteCommand(cmdId)`: same shape as `deleteNote` for commands. -/
def deleteCommand (pid : Str) (cmdId : Str) (res : NetResult) (s : CardState) : CardState :=
  let s1 := { s with commands := s.commands.filter (fun c => decide (c.id ≠ cmdId)) }
  let s2 := { s1 with sent := s1.sent ++ [.httpDelete (.commandsDelete pid cmdId)] }
  match res with
  | .netError => { s2 with toasts := s2.toasts ++ [.failedSyncDelete] }
  | _ => s2

/-- Index of the first dash in a key, as computed by
`key.indexOf('-')` inside the flush guard (keys built by `mkKey` always
contain a dash). -/
def firstDashIdx (key : Str) : Nat :=
  key.findIdx (fun c => c == dashChar)

/-- Embeds `key.slice(0, firstDash)`: the kind part of a scheduler key. -/
def keyTypeStr (key : Str) : Str :=
  key.take (firstDashIdx key)

/-- Embeds `key.slice(firstDash + 1)`: the id part of a scheduler key. -/
def keyIdStr (key : Str) : Str :=
  key.drop (firstDashIdx key + 1)

/-- The `sendBeacon` request built by the flush guard for one pending
entry: the key is split at its first dash, the endpoint and the
id-carrying body field are chosen by comparing the kind part with
`'note'`, and the merged updates are spread after the id field. -/
def beaconOf (pid : Str) (e : Str × PendingRec) : Request :=
  let tyStr := keyTypeStr e.1
  let id := keyIdStr e.1
  if tyStr = noteChars then
    .beacon (.notes pid) ⟨noteIdField, id, e.2.updates⟩
  else
    .beacon (.commands pid) ⟨commandIdField, id, e.2.updates⟩

/-- The actively focused editable field at unload time, holding the text
typed since the last blur.  Blurring it runs the field's `onSave`
callback (`updateNote` / `updateCommand` with the single edited field). -/
inductive Focused
  | noteContent (n : Note) (value : Str)
  | commandCmd (c : Command) (value : Str)
  | commandDesc (c : Command) (value : Str)
deriving DecidableEq, Repr

/-- The debounced-sync arguments produced by blurring a focused field. -/
def Focused.syncArgs : Focused → EntityType × Str × Updates
  | .noteContent n v => (.note, n.id, [(fieldContent, v)])
  | .commandCmd c v => (.command, c.id, [(fieldCommand, v)])
  | .commandDesc c v => (.command, c.id, [(fieldDescription, v)])

/-- Effect of `document.activeElement.blur()` inside the flush guard:
the focused field's `onSave` handler runs, feeding its latest value into
the optimistic store and the pending map. -/
def blurFocused (now : Nat) : Option Focused → CardState → CardState
  | none, s => s
  | some (.noteContent n v), s => updateNote now n [(fieldContent, v)] s
  | some (.commandCmd c v), s => updateCommand now c [(fieldCommand, v)] s
  | some (.commandDesc c v), s => updateCommand now c [(fieldDescription, v)] s

/-- Embeds `flushPendingUpdates()` (the `beforeunload` handler): blurs the
active element, clears every debounce timer, sends one `sendBeacon` per
queued mutation with a self-contained body, and clears the pending map. -/
def flushPendingUpdates (pid : Str) (now : Nat) (focused : Option Focused)
    (s : CardState) : CardState :=
  let s1 := blurFocused now focused s
  let s2 := { s1 with timers := [] }
  { s2 with sent := s2.sent ++ s2.pending.map (beaconOf pid), pending := [] }

/-- A user-level event delivered to the card at some instant. -/
inductive Event
  | editNote (n : Note) (u : Updates)
  | editCommand (c : Command) (u : Updates)
  | addNoteEv (freshId : Str) (res : NetResult)
  | addCommandEv (freshId : Str) (res : NetResult)
  | deleteNoteEv (noteId : Str) (res : NetResult)
  | deleteCommandEv (cmdId : Str) (res : NetResult)
deriving DecidableEq, Repr

/-- Dispatch of one event to the corresponding component handler. -/
def applyEvent (pid : Str) (now : Nat) : Event → CardState → CardState
  | .editNote n u, s => updateNote now n u s
  | .editCommand c u, s => updateCommand now c u s
  | .addNoteEv f res, s => addNote pid f res s
  | .addCommandEv f res, s => addCommand pid f res s
  | .deleteNoteEv nid res, s => deleteNote pid nid res s
  | .deleteCommandEv cid res, s => deleteCommand pid cid res s

/-- Runs a time-stamped event list: before each event, every timer due
at that instant fires (with PATCH settlement `res`), then the event's
handler runs. -/
def runEvents (pid : Str) (res : NetResult) : List (Nat × Event) → CardState → CardState
  | [], s => s
  | (t, e) :: rest, s => runEvents pid res rest (applyEvent pid t e (fireAllDue pid t res s))

/-- A run of time-stamped events from a freshly mounted card. -/
def runScenario (pid : Str) (res : NetResult) (evs : List (Nat × Event)) : CardState :=
  runEvents pid res evs initState

/-- The edit event addressing entity `id` of kind `ty` through the
debounced sync path; the carried entity record is the render-prop
snapshot whose only part the sync path reads is its `id`. -/
def mkEdit (ty : EntityType) (id : Str) (u : Updates) : Event :=
  match ty with
  | .note => .editNote { id := id, project_id := [], tag := [], content := [] } u
  | .command => .editCommand { id := id, project_id := [], command := [], description := [] } u

/-- Field-wise coalescing of an edit sequence: successive spreads over
the first edit's fields. -/
def coalesced (u0 : Updates) (us : List Updates) : Updates :=
  us.foldl mergeUpd u0

/-- The value of field `f` in the last edit of `u0 :: us` touching `f`. -/
def lastTouched (u0 : Updates) (us : List Updates) (f : Str) : Option Str :=
  us.foldl (fun acc u => match alookup f u with
    | some v => some v
    | none => acc) (alookup f u0)

/-- The coalesced body agrees, on every field, with the last edit that
touched that field. -/
def AgreesWithLast (u0 : Updates) (us : List Updates) : Prop :=
  ∀ f : Str, alookup f (coalesced u0 us) = lastTouched u0 us f

/-- The instant of the last event of a timed sequence (`t0` if empty). -/
def lastTime (t0 : Nat) (es : List (Nat × Updates)) : Nat :=
  es.foldl (fun _ p => p.1) t0

/-- A row of the `notes` table. -/
structure NoteRow where
  id : Str
  project_id : Str
  user_id : Str
  tag : Str
  content : Str
deriving DecidableEq, Repr

/-- Embeds `POST /api/projects/[id]/notes` (success path): inserts a row whose
id is `body.id` when the client sent one (`genId` stands for the
database column default `gen_random_uuid()` used when `body.id` is
absent); `tag` and `content` fall back through JS `||`.  Returns `none`
on a missing caller identity (the 401 branch); database-level insert
failures are outside the embedding. -/
def notesPOST (user : Option Str) (pid : Str) (genId : Str) (body : Updates) :
    Option NoteRow :=
  user.map (fun u =>
    { id := (alookup fieldId body).getD genId,
      project_id := pid,
      user_id := u,
      tag := jsOr (alookup fieldTag body) tagNoteChars,
      content := jsOr (alookup fieldContent body) [] })

/-- A row of the `commands` table. -/
structure CommandRow where
  id : Str
  project_id : Str
  user_id : Str
  command : Str
  description : Str
deriving DecidableEq, Repr

/-- Outcome of the commands `POST` route, which doubles as an update
endpoint for the unload beacon. -/
inductive CmdPostResult
  | unauthorized
  | updated (commandId : Str) (command description : Option Str)
  | created (row : CommandRow)
deriving DecidableEq, Repr

/-- Embeds `POST /api/projects/[id]/commands`: when `body.command_id` is truthy
this is the sendBeacon update branch (updates `command` / `description`
of that row); otherwise it inserts a new row whose id is `body.id`
(client-generated), with `genId` standing for the column default. -/
def commandsPOST (user : Option Str) (pid : Str) (genId : Str) (body : Updates) :
    CmdPostResult :=
  match user with
  | none => .unauthorized
  | some u =>
    match alookup commandIdField body with
    | some cid =>
      if cid = [] then
        .created { id := (alookup fieldId body).getD genId, project_id := pid, user_id := u,
                   command := jsOr (alookup fieldCommand body) [],
                   description := jsOr (alookup fieldDescription body) [] }
      else
        .updated cid (alookup fieldCommand body) (alookup fieldDescription body)
    | none =>
      .created { id := (alookup fieldId body).getD genId, project_id := pid, user_id := u,
                 command := jsOr (alookup fieldCommand body) [],
                 description := jsOr (alookup fieldDescription body) [] }

/-- A row of the `links` table, reduced to the fields the claims mention. -/
structure LinkRow where
  id : Str
  project_id : Str
  user_id : Str
  name : Str
  link_type : Str
deriving DecidableEq, Repr

/-- The field-name literal `'link_id'`. -/
def linkIdField : Str := ['l', 'i', 'n', 'k', '_', 'i', 'd']

/-- Outcome of the links `POST` route. -/
inductive LinkPostResult
  | unauthorized
  | updated (linkId : Str) (updates : Updates)
  | created (row : LinkRow)
deriving DecidableEq, Repr

/-- Embeds `POST /api/projects/[id]/links`: when `body.link_id` is truthy this
is the sendBeacon update branch; otherwise it inserts a new row whose id
is `body.id`. -/
def linksPOST (user : Option Str) (pid : Str) (genId : Str) (body : Updates) :
    LinkPostResult :=
  match user with
  | none => .unauthorized
  | some u =>
    match alookup linkIdField body with
    | some lid =>
      if lid = [] then
        .created { id := (alookup fieldId body).getD genId, project_id := pid, user_id := u,
                   name := jsOr (alookup fieldName body) newLinkChars,
                   link_type := jsOr (alookup fieldLinkType body) urlChars }
      else
        .updated lid (aerase linkIdField body)
    | none =>
      .created { id := (alookup fieldId body).getD genId, project_id := pid, user_id := u,
                 name := jsOr (alookup fieldName body) newLinkChars,
                 link_type := jsOr (alookup fieldLinkType body) urlChars }

/-- A row of the `projects` table, reduced to the reorder-relevant fields. -/
structure ProjectRow where
  id : Str
  user_id : Str
  sort_order : Nat
deriving DecidableEq, Repr

/-- The position-update list built by `POST /api/projects/reorder`:
`orderedIds.map((id, index) => update({ sort_order: index }).eq('id', id))`. -/
def reorderUpdates (orderedIds : List Str) : List (Str × Nat) :=
  orderedIds.enum.map (fun p => (p.2, p.1))

/-- Effect on the projects table of one position update
`update({ sort_order: u.2 }).eq('id', u.1).eq('user_id', uid)`. -/
def applyReorderUpdate (uid : Str) (db : List ProjectRow) (u : Str × Nat) :
    List ProjectRow :=
  db.map (fun r => if r.id = u.1 ∧ r.user_id = uid then { r with sort_order := u.2 } else r)

/-- The updates queued under a key before a new edit is merged in
(`pendingUpdates.current[key]?.updates` with `undefined` read as the
empty object). -/
def prevOf (s : CardState) (key : Str) : Updates :=
  match alookup key s.pending with
  | some r => r.updates
  | none => []

/-- The provisional note inserted synchronously by `addNote`. -/
def provNote (pid f : Str) : Note :=
  { id := f, project_id := pid, tag := tagNoteChars, content := [] }

/-- The provisional command inserted synchronously by `addCommand`. -/
def provCommand (pid f : Str) : Command :=
  { id := f, project_id := pid, command := [], description := [] }

/-- The provisional link inserted synchronously by `addLink`. -/
def provLink (pid f : Str) : Link :=
  { id := f, project_id := pid, name := newLinkChars, link_type := urlChars }

lemma alookup_aupsert_self {β : Type} (k : Str) (v : β) (m : List (Str × β)) :
    alookup k (aupsert k v m) = some v := by
  induction m with
  | nil => simp [aupsert, alookup]
  | cons p rest ih =>
    obtain ⟨k', v'⟩ := p
    by_cases h : k' = k
    · simp [aupsert, h, alookup]
    · simp [aupsert, h, alookup, ih]

lemma mem_of_alookup {β : Type} {k : Str} {v : β} :
    ∀ {m : List (Str × β)}, alookup k m = some v → (k, v) ∈ m := by
  intro m
  induction m with
  | nil => simp [alookup]
  | cons p rest ih =>
    obtain ⟨k', v'⟩ := p
    by_cases h : k' = k
    · subst h
      intro hv
      rw [alookup, if_pos rfl] at hv
      cases hv
      exact List.mem_cons_self _ _
    · intro hv
      rw [alookup, if_neg h] at hv
      exact List.mem_cons_of_mem _ (ih hv)

lemma alookup_mergeUpd (f : Str) (old nw : Updates) :
    alookup f (mergeUpd old nw) =
      match alookup f nw with
      | some v => some v
      | none => alookup f old := by
  induction old with
  | nil =>
    cases h : alookup f nw <;> simp [mergeUpd, h, alookup]
  | cons p old ih =>
    obtain ⟨k, v⟩ := p
    have hstep : mergeUpd ((k, v) :: old) nw =
        if (alookup k nw).isNone then (k, v) :: mergeUpd old nw else mergeUpd old nw := by
      by_cases h : (alookup k nw).isNone <;> simp [mergeUpd, List.filter_cons, h]
    by_cases hk : k = f
    · subst hk
      cases h : alookup k nw with
      | none => simp [hstep, h, alookup]
      | some w => simp [hstep, h, alookup, ih]
    · by_cases hn : (alookup k nw).isNone <;>
        cases h : alookup f nw <;>
          simp [hstep, hn, h, alookup, hk, ih]

lemma alookup_foldl_mergeUpd (f : Str) :
    ∀ (us : List Updates) (acc : Updates),
      alookup f (us.foldl mergeUpd acc) =
        us.foldl (fun a u =>
          match alookup f u with
          | some v => some v
          | none => a) (alookup f acc) := by
  intro us
  induction us with
  | nil => intro acc; rfl
  | cons u us ih =>
    intro acc
    rw [List.foldl_cons, List.foldl_cons, ih, alookup_mergeUpd]

/-- The coalesced body of an edit sequence assigns each field the value
of the last edit that touched it. -/
lemma coalesced_agrees (u0 : Updates) (us : List Updates) :
    AgreesWithLast u0 us := by
  intro f
  exact alookup_foldl_mergeUpd f us u0

lemma applyEvent_mkEdit_pending (pid : Str) (t : Nat) (ty : EntityType) (id : Str)
    (u : Updates) (s : CardState) :
    (applyEvent pid t (mkEdit ty id u) s).pending =
      aupsert (mkKey ty id) ⟨ty, mergeUpd (prevOf s (mkKey ty id)) u⟩ s.pending := by
  cases ty <;> rfl

lemma applyEvent_mkEdit_timers (pid : Str) (t : Nat) (ty : EntityType) (id : Str)
    (u : Updates) (s : CardState) :
    (applyEvent pid t (mkEdit ty id u) s).timers =
      aupsert (mkKey ty id) ⟨t + 500, ty, id⟩ s.timers := by
  cases ty <;> rfl

lemma applyEvent_mkEdit_sent (pid : Str) (t : Nat) (ty : EntityType) (id : Str)
    (u : Updates) (s : CardState) :
    (applyEvent pid t (mkEdit ty id u) s).sent = s.sent := by
  cases ty <;> rfl

lemma applyEvent_mkEdit_toasts (pid : Str) (t : Nat) (ty : EntityType) (id : Str)
    (u : Updates) (s : CardState) :
    (applyEvent pid t (mkEdit ty id u) s).toasts = s.toasts := by
  cases ty <;> rfl

lemma fireAllDue_single_not_due (pid : Str) (t : Nat) (res : NetResult)
    (s : CardState) (key : Str) (e : TimerRec) (h : s.timers = [(key, e)])
    (hlt : t < e.expiry) :
    fireAllDue pid t res s = s := by
  unfold fireAllDue
  rw [h]
  have hd : decide (e.expiry ≤ t) = false := decide_eq_false (by omega)
  simp [List.filter_cons, hd]

lemma fireAllDue_single_due (pid : Str) (t : Nat) (res : NetResult)
    (s : CardState) (key : Str) (e : TimerRec) (h : s.timers = [(key, e)])
    (hle : e.expiry ≤ t) :
    fireAllDue pid t res s = fireTimer pid e.ty e.id res s := by
  unfold fireAllDue
  rw [h]
  have hd : decide (e.expiry ≤ t) = true := decide_eq_true hle
  simp [List.filter_cons, hd]

lemma fireTimer_sent (pid : Str) (ty : EntityType) (id : Str) (res : NetResult)
    (s : CardState) (pend : PendingRec)
    (h : alookup (mkKey ty id) s.pending = some pend) :
    (fireTimer pid ty id res s).sent =
      s.sent ++ [.patch (patchEndpoint pid ty) ⟨idFieldName ty, id, pend.updates⟩] := by
  cases res <;> simp [fireTimer, h]

/-- Invariant of a run of same-key debounced edits with gaps below the
quiet period: the single entry of the pending map accumulates the
field-wise merge, the key's single timer is restarted at each edit, and
no request or toast is produced while the edits keep arriving. -/
lemma runEvents_single_key (pid : Str) (res : NetResult) (ty : EntityType)
    (id : Str) (es : List (Nat × Updates)) :
    ∀ (tprev : Nat) (acc : Updates) (s : CardState),
      s.pending = [(mkKey ty id, ⟨ty, acc⟩)] →
      s.timers = [(mkKey ty id, ⟨tprev + 500, ty, id⟩)] →
      List.Chain (fun a b => a < b ∧ b - a < 500) tprev (es.map Prod.fst) →
      ((runEvents pid res (es.map fun p => (p.1, mkEdit ty id p.2)) s).pending =
          [(mkKey ty id, ⟨ty, coalesced acc (es.map Prod.snd)⟩)]) ∧
      ((runEvents pid res (es.map fun p => (p.1, mkEdit ty id p.2)) s).timers =
          [(mkKey ty id, ⟨lastTime tprev es + 500, ty, id⟩)]) ∧
      ((runEvents pid res (es.map fun p => (p.1, mkEdit ty id p.2)) s).sent = s.sent) ∧
      ((runEvents pid res (es.map fun p => (p.1, mkEdit ty id p.2)) s).toasts = s.toasts) := by
  induction es with
  | nil =>
    intro tprev acc s hp ht _
    exact ⟨by simpa [runEvents, coalesced] using hp,
           by simpa [runEvents, lastTime] using ht, rfl, rfl⟩
  | cons e es ih =>
    obtain ⟨t, u⟩ := e
    intro tprev acc s hp ht hch
    rw [List.map_cons, List.chain_cons] at hch
    obtain ⟨⟨hlt, hgap⟩, hch'⟩ := hch
    have hfd : fireAllDue pid t res s = s :=
      fireAllDue_single_not_due pid t res s _ _ ht (by show t < tprev + 500; omega)
    have hp' : (applyEvent pid t (mkEdit ty id u) s).pending =
        [(mkKey ty id, ⟨ty, mergeUpd acc u⟩)] := by
      rw [applyEvent_mkEdit_pending]
      simp [prevOf, hp, alookup, aupsert]
    have ht' : (applyEvent pid t (mkEdit ty id u) s).timers =
        [(mkKey ty id, ⟨t + 500, ty, id⟩)] := by
      rw [applyEvent_mkEdit_timers, ht]
      simp [aupsert]
    have hrun : runEvents pid res (((t, u) :: es).map fun p => (p.1, mkEdit ty id p.2)) s
        = runEvents pid res (es.map fun p => (p.1, mkEdit ty id p.2))
            (applyEvent pid t (mkEdit ty id u) s) := by
      simp [runEvents, hfd]
    obtain ⟨c1, c2, c3, c4⟩ := ih t (mergeUpd acc u) _ hp' ht' hch'
    refine ⟨?_, ?_, ?_, ?_⟩
    · rw [hrun, c1]
      simp [coalesced]
    · rw [hrun, c2]
      simp [lastTime]
    · rw [hrun, c3, applyEvent_mkEdit_sent]
    · rw [hrun, c4, applyEvent_mkEdit_toasts]

/-- Statement of the coalescing law for a nonempty same-key edit
sequence `(t0, u0)` then `es`: while edits keep arriving no write is
issued and the key holds exactly one (restarted) timer and one merged
pending mutation; one instant before the quiet period elapses still
nothing is sent; when it elapses exactly one PATCH is issued, whose body
carries, for each edited field, the value of the last edit touching it. -/
def CoalescingSpec (pid : Str) (ty : EntityType) (id : Str) (res : NetResult)
    (t0 : Nat) (u0 : Updates) (es : List (Nat × Updates)) : Prop :=
  let mid := runScenario pid res
    ((t0, mkEdit ty id u0) :: es.map fun p => (p.1, mkEdit ty id p.2))
  mid.sent = [] ∧
  mid.toasts = [] ∧
  mid.pending = [(mkKey ty id, ⟨ty, coalesced u0 (es.map Prod.snd)⟩)] ∧
  mid.timers = [(mkKey ty id, ⟨lastTime t0 es + 500, ty, id⟩)] ∧
  (fireAllDue pid (lastTime t0 es + 499) res mid).sent = [] ∧
  (fireAllDue pid (lastTime t0 es + 500) res mid).sent =
    [.patch (patchEndpoint pid ty) ⟨idFieldName ty, id, coalesced u0 (es.map Prod.snd)⟩] ∧
  AgreesWithLast u0 (es.map Prod.snd)

/-- C1: a nonempty sequence of same-key edits through the debounced sync
path, consecutive edits less than one quiet period apart, produces
exactly one PATCH after the quiet period elapses; its body carries, for
each edited field, the value of the last edit that touched it, and each
new edit restarts the key's single timer rather than adding another. -/
theorem debounced_edits_coalesce (pid : Str) (ty : EntityType) (id : Str)
    (res : NetResult) (t0 : Nat) (u0 : Updates) (es : List (Nat × Updates))
    (hchain : List.Chain (fun a b => a < b ∧ b - a < 500) t0 (es.map Prod.fst)) :
    CoalescingSpec pid ty id res t0 u0 es := by
  unfold CoalescingSpec runScenario
  have hp1 : (applyEvent pid t0 (mkEdit ty id u0) initState).pending =
      [(mkKey ty id, ⟨ty, u0⟩)] := by
    rw [applyEvent_mkEdit_pending]
    simp [prevOf, initState, alookup, aupsert, mergeUpd]
  have ht1 : (applyEvent pid t0 (mkEdit ty id u0) initState).timers =
      [(mkKey ty id, ⟨t0 + 500, ty, id⟩)] := by
    rw [applyEvent_mkEdit_timers]
    rfl
  have hrun : runEvents pid res
      ((t0, mkEdit ty id u0) :: es.map fun p => (p.1, mkEdit ty id p.2)) initState
      = runEvents pid res (es.map fun p => (p.1, mkEdit ty id p.2))
          (applyEvent pid t0 (mkEdit ty id u0) initState) := by
    simp [runEvents]
    rfl
  obtain ⟨c1, c2, c3, c4⟩ := runEvents_single_key pid res ty id es t0 u0 _ hp1 ht1 hchain
  have hsent : (runEvents pid res
      ((t0, mkEdit ty id u0) :: es.map fun p => (p.1, mkEdit ty id p.2)) initState).sent
      = [] := by
    rw [hrun, c3, applyEvent_mkEdit_sent]
    rfl
  have htoast : (runEvents pid res
      ((t0, mkEdit ty id u0) :: es.map fun p => (p.1, mkEdit ty id p.2)) initState).toasts
      = [] := by
    rw [hrun, c4, applyEvent_mkEdit_toasts]
    rfl
  have hpend : (runEvents pid res
      ((t0, mkEdit ty id u0) :: es.map fun p => (p.1, mkEdit ty id p.2)) initState).pending
      = [(mkKey ty id, ⟨ty, coalesced u0 (es.map Prod.snd)⟩)] := by
    rw [hrun, c1]
  have htim : (runEvents pid res
      ((t0, mkEdit ty id u0) :: es.map fun p => (p.1, mkEdit ty id p.2)) initState).timers
      = [(mkKey ty id, ⟨lastTime t0 es + 500, ty, id⟩)] := by
    rw [hrun, c2]
  refine ⟨hsent, htoast, hpend, htim, ?_, ?_, coalesced_agrees u0 _⟩
  · rw [fireAllDue_single_not_due pid _ res _ _ _ htim
      (by show lastTime t0 es + 499 < lastTime t0 es + 500; omega), hsent]
  · rw [fireAllDue_single_due pid _ res _ _ _ htim
      (by show lastTime t0 es + 500 ≤ lastTime t0 es + 500; omega)]
    rw [fireTimer_sent pid ty id res _ ⟨ty, coalesced u0 (es.map Prod.snd)⟩
      (by rw [hpend]; simp [alookup]), hsent]
    rfl

/-- A concrete project id used in concrete scenarios. -/
def exPid : Str := ['p', '1']

/-- A concrete entity id containing a dash, like a UUID. -/
def exNoteId : Str := ['a', '-', 'b']

/-- A concrete field value. -/
def exVal : Str := ['x']

/-- A concrete server error message. -/
def exMsg : Str := ['e', 'r', 'r']

/-- A concrete client-allocated identifier. -/
def exFresh : Str := ['u', '-', '1']

/-- Concrete scenario for the delete-under-pending-timer behaviour: a
note is created, its content is edited (starting a 500-unit debounce
timer), and the note is structurally deleted 100 units later, before the
timer fires. -/
def c2Events : List (Nat × Event) :=
  [(0, .addNoteEv exNoteId .ok),
   (0, mkEdit .note exNoteId [(fieldContent, exVal)]),
   (100, .deleteNoteEv exNoteId .ok)]

/-- The card state just after the structural delete of `c2Events`. -/
def c2Mid : CardState := runScenario exPid .ok c2Events

/-- The card state after the orphaned debounce timer fires at instant
500; the PATCH for the deleted note hits a missing row, so its
settlement is a non-ok response. -/
def c2Final : CardState := fireAllDue exPid 500 (.httpError exMsg) c2Mid

/-- C2: the claim states that a structural delete cancels the entity's
pending debounce timer and drops the queued mutation.  The code does
not: `deleteNote` only filters the store and issues the DELETE, leaving
`pendingUpdates` and `debounceTimers` untouched, so the timer fires
after the quiet period and a PATCH for the deleted note's key is still
issued (and its failed settlement raises a spurious toast).  This
theorem evaluates the embedded code on that failing input. -/
theorem delete_leaves_pending_write :
    c2Mid.notes = [] ∧
    alookup (mkKey .note exNoteId) c2Mid.timers =
      some ⟨500, .note, exNoteId⟩ ∧
    c2Final.sent =
      [.post (.notes exPid) (noteCreateBody exNoteId),
       .httpDelete (.notesDelete exPid exNoteId),
       .patch (.notes exPid) ⟨noteIdField, exNoteId, [(fieldContent, exVal)]⟩] ∧
    c2Final.toasts = [.failedSaveHttp .note exMsg] := by
  decide

/-- C10: scheduler keys round-trip through the flush guard's first-dash
parsing: for both entity kinds and any identifier (dashes included),
splitting `` `${type}-${id}` `` at its first dash recovers the kind and
the identifier exactly, so the teardown beacon for a queued mutation
addresses the same entity, endpoint and id-field as the queued edit. -/
theorem scheduler_key_roundtrip (ty : EntityType) (id pid : Str) (r : PendingRec) :
    keyTypeStr (mkKey ty id) = ty.str ∧
    keyIdStr (mkKey ty id) = id ∧
    beaconOf pid (mkKey ty id, r) =
      .beacon (patchEndpoint pid ty) ⟨idFieldName ty, id, r.updates⟩ := by
  cases ty <;> exact ⟨rfl, rfl, rfl⟩

/-- C3 counterexample: the claim states that a failed create removes the
provisionally inserted entity from the visible snapshot.  Evaluating
`addNote` with a failed (rejected) create call shows the provisional
note is still present in the snapshot — only a toast is emitted. -/
theorem addNote_failure_note_not_removed :
    (addNote exPid exFresh .netError initState).notes = [provNote exPid exFresh] ∧
    (addNote exPid exFresh .netError initState).toasts = [.failedSyncNote] :=
  ⟨rfl, rfl⟩

/-- C3 (amended): on a create network failure an error notification is
emitted but the provisional entity remains in the visible snapshot; on a
non-ok response nothing happens (the status is never inspected); on
success the local state is unchanged beyond the synchronous optimistic
insertion. -/
theorem create_failure_keeps_provisional (pid f m : Str) (s : CardState) :
    ((addNote pid f .netError s).notes = s.notes ++ [provNote pid f]) ∧
    ((addNote pid f .netError s).toasts = s.toasts ++ [.failedSyncNote]) ∧
    ((addNote pid f (.httpError m) s).notes = s.notes ++ [provNote pid f]) ∧
    ((addNote pid f (.httpError m) s).toasts = s.toasts) ∧
    ((addNote pid f .ok s).notes = s.notes ++ [provNote pid f]) ∧
    ((addNote pid f .ok s).toasts = s.toasts) ∧
    ((addCommand pid f .netError s).commands = s.commands ++ [provCommand pid f]) ∧
    ((addCommand pid f .netError s).toasts = s.toasts ++ [.failedSyncCommand]) ∧
    ((addCommand pid f .ok s).commands = s.commands ++ [provCommand pid f]) ∧
    ((addCommand pid f .ok s).toasts = s.toasts) :=
  ⟨rfl, rfl, rfl, rfl, rfl, rfl, rfl, rfl, rfl, rfl⟩

/-- C9 counterexample: the claim states that every network call reports
a non-success response status through a notification.  Evaluating the
structural fire-and-forget calls with a non-ok response shows no toast
is emitted: only `.catch` is attached, so the response status is never
inspected there. -/
theorem structural_httpError_no_toast :
    ((deleteNote exPid exNoteId (.httpError exMsg) initState).toasts = []) ∧
    ((addNote exPid exFresh (.httpError exMsg) initState).toasts = []) :=
  ⟨rfl, rfl⟩

/-- C9 (amended): a network-unreachable failure on any structural
fire-and-forget call is reported through its `.catch` completion
callback as a notification (never thrown), but a non-success response
status on those calls is silently ignored; the response status is
checked — and reported — only on the debounced field-update path. -/
theorem transport_failure_reporting (pid nid cid f m : Str) (ty : EntityType)
    (id : Str) (s : CardState) :
    ((deleteNote pid nid .netError s).toasts = s.toasts ++ [.failedSyncDelete]) ∧
    ((deleteNote pid nid (.httpError m) s).toasts = s.toasts) ∧
    ((deleteNote pid nid .ok s).toasts = s.toasts) ∧
    ((deleteCommand pid cid .netError s).toasts = s.toasts ++ [.failedSyncDelete]) ∧
    ((deleteCommand pid cid (.httpError m) s).toasts = s.toasts) ∧
    ((addNote pid f .netError s).toasts = s.toasts ++ [.failedSyncNote]) ∧
    ((addNote pid f (.httpError m) s).toasts = s.toasts) ∧
    ((addCommand pid f .netError s).toasts = s.toasts ++ [.failedSyncCommand]) ∧
    ((addLink pid f .netError s).toasts = s.toasts ++ [.failedSyncLink]) ∧
    ((fireTimer pid ty id (.httpError m) s).toasts =
      s.toasts ++ (match alookup (mkKey ty id) s.pending with
        | none => []
        | some _ => [.failedSaveHttp ty m])) := by
  refine ⟨rfl, rfl, rfl, rfl, rfl, rfl, rfl, rfl, rfl, ?_⟩
  cases h : alookup (mkKey ty id) s.pending <;> simp [fireTimer, h]

/-- C6: when a debounced field-update write settles with a non-ok
response or a network error, a notification is emitted (when a mutation
was queued for the key), the Entity Store slices are untouched — the
optimistic value stays visible — and a subsequent edit to the same key
schedules normally (the key was cleared before the fetch). -/
theorem debounced_failure_keeps_optimistic (pid : Str) (ty : EntityType)
    (id m : Str) (now : Nat) (u : Updates) (s : CardState) :
    ((fireTimer pid ty id (.httpError m) s).notes = s.notes) ∧
    ((fireTimer pid ty id (.httpError m) s).commands = s.commands) ∧
    ((fireTimer pid ty id (.httpError m) s).links = s.links) ∧
    ((fireTimer pid ty id .netError s).notes = s.notes) ∧
    ((fireTimer pid ty id .netError s).commands = s.commands) ∧
    ((fireTimer pid ty id .netError s).links = s.links) ∧
    ((fireTimer pid ty id (.httpError m) s).toasts =
      s.toasts ++ (match alookup (mkKey ty id) s.pending with
        | none => []
        | some _ => [.failedSaveHttp ty m])) ∧
    ((fireTimer pid ty id .netError s).toasts =
      s.toasts ++ (match alookup (mkKey ty id) s.pending with
        | none => []
        | some _ => [.failedSaveNet ty])) ∧
    (alookup (mkKey ty id)
        (debouncedSync now id ty u (fireTimer pid ty id (.httpError m) s)).timers =
      some ⟨now + 500, ty, id⟩) ∧
    (alookup (mkKey ty id)
        (debouncedSync now id ty u (fireTimer pid ty id (.httpError m) s)).pending =
      some ⟨ty, mergeUpd (prevOf (fireTimer pid ty id (.httpError m) s) (mkKey ty id)) u⟩) := by
  cases h : alookup (mkKey ty id) s.pending <;>
    refine ⟨?_, ?_, ?_, ?_, ?_, ?_, ?_, ?_, ?_, ?_⟩ <;>
      simp [fireTimer, h, debouncedSync, prevOf, alookup_aupsert_self]

/-- C7: a successful debounced field-update settlement leaves the card
state's Entity Store slices and notifications untouched — the server's
returned entity is never re-merged, so local edits made after dispatch
are preserved. -/
theorem debounced_success_store_frame (pid : Str) (ty : EntityType) (id : Str)
    (s : CardState) :
    ((fireTimer pid ty id .ok s).notes = s.notes) ∧
    ((fireTimer pid ty id .ok s).commands = s.commands) ∧
    ((fireTimer pid ty id .ok s).links = s.links) ∧
    ((fireTimer pid ty id .ok s).toasts = s.toasts) := by
  cases h : alookup (mkKey ty id) s.pending <;> simp [fireTimer, h]

/-- C4: every creation allocates its durable identifier client-side at
the moment of user action, the identifier is sent in the creation
request body, the create settlement never changes the store (so the
identifier is never replaced), the server insert uses exactly the
client's id, and an edit issued while the create is unresolved is keyed
by that same identifier. -/
theorem client_allocated_id_durable (pid f : Str) (res : NetResult) (s : CardState)
    (now : Nat) (u : Updates) (user genId : Str) :
    ((addNote pid f res s).notes = s.notes ++ [provNote pid f]) ∧
    ((addNote pid f res s).sent = s.sent ++ [.post (.notes pid) (noteCreateBody f)]) ∧
    (alookup fieldId (noteCreateBody f) = some f) ∧
    ((addCommand pid f res s).commands = s.commands ++ [provCommand pid f]) ∧
    ((addCommand pid f res s).sent = s.sent ++ [.post (.commands pid) (commandCreateBody f)]) ∧
    (alookup fieldId (commandCreateBody f) = some f) ∧
    ((addLink pid f res s).links = s.links ++ [provLink pid f]) ∧
    ((addLink pid f res s).sent = s.sent ++ [.post (.links pid) (linkCreateBody f)]) ∧
    (alookup fieldId (linkCreateBody f) = some f) ∧
    (notesPOST (some user) pid genId (noteCreateBody f) =
      some { id := f, project_id := pid, user_id := user, tag := tagNoteChars, content := [] }) ∧
    (commandsPOST (some user) pid genId (commandCreateBody f) =
      .created { id := f, project_id := pid, user_id := user, command := [], description := [] }) ∧
    (linksPOST (some user) pid genId (linkCreateBody f) =
      .created { id := f, project_id := pid, user_id := user, name := newLinkChars,
                 link_type := urlChars }) ∧
    (alookup (mkKey .note f)
        (updateNote now (provNote pid f) u (addNote pid f res s)).timers =
      some ⟨now + 500, .note, f⟩) ∧
    (alookup (mkKey .note f)
        (updateNote now (provNote pid f) u (addNote pid f res s)).pending =
      some ⟨.note, mergeUpd (prevOf s (mkKey .note f)) u⟩) := by
  have hT : (addNote pid f res s).timers = s.timers := by cases res <;> rfl
  have hP : (addNote pid f res s).pending = s.pending := by cases res <;> rfl
  refine ⟨?_, ?_, rfl, ?_, ?_, rfl, ?_, ?_, rfl, rfl, rfl, rfl, ?_, ?_⟩
  · cases res <;> rfl
  · cases res <;> rfl
  · cases res <;> rfl
  · cases res <;> rfl
  · cases res <;> rfl
  · cases res <;> rfl
  · simp [updateNote, debouncedSync, hT, alookup_aupsert_self, provNote]
  · simp [updateNote, debouncedSync, hP, prevOf, alookup_aupsert_self, provNote]

/-- Decoding inside `beaconOf` recovers exactly the entity kind and id
the key was built from, for both kinds and any id. -/
lemma beaconOf_mkKey (pid : Str) (ty : EntityType) (id : Str) (r : PendingRec) :
    beaconOf pid (mkKey ty id, r) =
      .beacon (patchEndpoint pid ty) ⟨idFieldName ty, id, r.updates⟩ := by
  cases ty <;> rfl

/-- C5: the unload flush guard cancels every timer, clears the pending
map, and sends one teardown-safe beacon per queued mutation; blurring
the focused field first enqueues its latest value under the field's
entity key (merged over anything already queued), and the beacon for
that key is sent with a self-contained body: the matching `note_id` or
`command_id` field alongside the merged updates. -/
theorem unload_flush_sends_pending (pid : Str) (now : Nat) (fe : Focused)
    (s : CardState) :
    ((flushPendingUpdates pid now (some fe) s).timers = []) ∧
    ((flushPendingUpdates pid now (some fe) s).pending = []) ∧
    ((flushPendingUpdates pid now (some fe) s).sent =
      s.sent ++ (blurFocused now (some fe) s).pending.map (beaconOf pid)) ∧
    (alookup (mkKey fe.syncArgs.1 fe.syncArgs.2.1)
        (blurFocused now (some fe) s).pending =
      some ⟨fe.syncArgs.1,
        mergeUpd (prevOf s (mkKey fe.syncArgs.1 fe.syncArgs.2.1)) fe.syncArgs.2.2⟩) ∧
    (Request.beacon (patchEndpoint pid fe.syncArgs.1)
        ⟨idFieldName fe.syncArgs.1, fe.syncArgs.2.1,
          mergeUpd (prevOf s (mkKey fe.syncArgs.1 fe.syncArgs.2.1)) fe.syncArgs.2.2⟩
      ∈ (flushPendingUpdates pid now (some fe) s).sent) := by
  have hsent : (flushPendingUpdates pid now (some fe) s).sent =
      s.sent ++ (blurFocused now (some fe) s).pending.map (beaconOf pid) := by
    cases fe <;> rfl
  have h4 : alookup (mkKey fe.syncArgs.1 fe.syncArgs.2.1)
      (blurFocused now (some fe) s).pending =
      some ⟨fe.syncArgs.1,
        mergeUpd (prevOf s (mkKey fe.syncArgs.1 fe.syncArgs.2.1)) fe.syncArgs.2.2⟩ := by
    cases fe <;>
      simp [blurFocused, updateNote, updateCommand, debouncedSync, Focused.syncArgs,
        prevOf, alookup_aupsert_self]
  refine ⟨rfl, rfl, hsent, h4, ?_⟩
  have hmem := List.mem_map_of_mem (beaconOf pid) (mem_of_alookup h4)
  rw [beaconOf_mkKey] at hmem
  rw [hsent]
  exact List.mem_append_right _ hmem

lemma applyReorderUpdate_comm (uid : Str) (db : List ProjectRow) (x y : Str × Nat)
    (h : x.1 ≠ y.1) :
    applyReorderUpdate uid (applyReorderUpdate uid db x) y =
      applyReorderUpdate uid (applyReorderUpdate uid db y) x := by
  unfold applyReorderUpdate
  rw [List.map_map, List.map_map]
  apply List.map_congr_left
  intro r _
  by_cases hxc : r.id = x.1 ∧ r.user_id = uid <;>
    by_cases hyc : r.id = y.1 ∧ r.user_id = uid
  · exact absurd (hxc.1.symm.trans hyc.1) h
  · simp [Function.comp, hxc, hyc, h]
  · simp [Function.comp, hxc, hyc, Ne.symm h]
  · simp [Function.comp, hxc, hyc]

/-- C8: the reorder route pairs the identifier at index `i` with
position `i`, issues one independent position update per identifier,
and — for duplicate-free identifier lists — the resulting table is the
same whatever order the individual updates are applied in. -/
theorem reorder_assigns_positions (uid : Str) (orderedIds : List Str)
    (db : List ProjectRow) (l : List (Str × Nat))
    (hperm : l.Perm (reorderUpdates orderedIds)) (hnd : orderedIds.Nodup) :
    (reorderUpdates orderedIds = orderedIds.zip (List.range orderedIds.length)) ∧
    ((reorderUpdates orderedIds).length = orderedIds.length) ∧
    (l.foldl (applyReorderUpdate uid) db =
      (reorderUpdates orderedIds).foldl (applyReorderUpdate uid) db) := by
  have hzip : reorderUpdates orderedIds = orderedIds.zip (List.range orderedIds.length) := by
    unfold reorderUpdates
    rw [List.enum_eq_zip_range]
    have hswap : (fun p : Nat × Str => (p.2, p.1)) = Prod.swap := rfl
    rw [hswap, List.zip_swap]
  refine ⟨hzip, ?_, ?_⟩
  · rw [hzip, List.length_zip, List.length_range, min_self]
  · have hfst : List.map Prod.fst (reorderUpdates orderedIds) = orderedIds := by
      rw [hzip]
      exact List.map_fst_zip _ _ (by rw [List.length_range])
    have hpw : (reorderUpdates orderedIds).Pairwise (fun a b => a.1 ≠ b.1) := by
      have hnd' := hnd
      rw [← hfst] at hnd'
      exact List.pairwise_map.mp hnd'
    have hsym : Symmetric (fun a b : Str × Nat => a.1 ≠ b.1) :=
      fun a b hab he => hab he.symm
    apply hperm.foldl_eq'
    intro x hx y hy z
    by_cases hxy : x = y
    · rw [hxy]
    · exact applyReorderUpdate_comm uid z x y
        (hpw.forall hsym (hperm.subset hx) (hperm.subset hy) hxy)

/-- Concrete reorder input: projects reordered to `[C, A, B]`. -/
def wOrderedIds : List Str := [['C'], ['A'], ['B']]

/-- Concrete projects table owned by user `u`. -/
def wDb : List ProjectRow :=
  [{ id := ['A'], user_id := ['u'], sort_order := 0 },
   { id := ['B'], user_id := ['u'], sort_order := 1 },
   { id := ['C'], user_id := ['u'], sort_order := 2 }]

/-- The position updates of the concrete reorder, applied in a different
completion order. -/
def wPermuted : List (Str × Nat) := [(['B'], 2), (['C'], 0), (['A'], 1)]

/-- Witness for C8 at the spec's concrete scenario: reordering `[A,B,C]`
to `[C,A,B]` yields position updates `C:0, A:1, B:2`, and applying them
in a shuffled completion order gives the same table. -/
theorem reorder_assigns_positions_witness :
    wPermuted.Perm (reorderUpdates wOrderedIds) ∧ wOrderedIds.Nodup ∧
    ((reorderUpdates wOrderedIds = wOrderedIds.zip (List.range wOrderedIds.length)) ∧
     ((reorderUpdates wOrderedIds).length = wOrderedIds.length) ∧
     (wPermuted.foldl (applyReorderUpdate ['u']) wDb =
       (reorderUpdates wOrderedIds).foldl (applyReorderUpdate ['u']) wDb)) :=
  ⟨by decide, by decide,
   reorder_assigns_positions ['u'] wOrderedIds wDb wPermuted (by decide) (by decide)⟩

/-- Concrete first edit body. -/
def w1u : Updates := [(fieldContent, ['a'])]

/-- Concrete second edit body. -/
def w2u : Updates := [(fieldContent, ['a', 'b'])]

/-- Concrete third edit body. -/
def w3u : Updates := [(fieldContent, ['a', 'b', 'c'])]

/-- Witness for C1 at the spec's concrete scenario: typing `a`, `ab`,
`abc` at instants 0, 100, 200 coalesces into a single PATCH carrying
`abc` after the quiet period. -/
theorem debounced_edits_coalesce_witness :
    List.Chain (fun a b => a < b ∧ b - a < 500) 0
      (([((100 : Nat), w2u), (200, w3u)]).map Prod.fst) ∧
    CoalescingSpec exPid .note exNoteId .ok 0 w1u [(100, w2u), (200, w3u)] :=
  ⟨List.Chain.cons (by decide) (List.Chain.cons (by decide) List.Chain.nil),
   debounced_edits_coalesce exPid .note exNoteId .ok 0 w1u [(100, w2u), (200, w3u)]
     (List.Chain.cons (by decide) (List.Chain.cons (by decide) List.Chain.nil))⟩

end ProjectFolio
